import Mathlib

/-!
Verification of the aegis-feedback-engine core against its specification.

The Python sources under `src/app` are shallowly embedded here:

* `app/logic.py`    : `sanitize_text`, `map_topics_to_department`,
  `analyze_heuristic`, `validate_llm_response`, `call_llm`,
  `analyze_feedback_hybrid`.
* `app/models.py`   : the enums, `TOPIC_TO_DEPT_MAP`, the `Feedback` row and
  `Feedback.generate_hash` (SHA-256 of the UTF-8 bytes, lowercase hex).
* `app/routers/feedback.py` : `ingest_feedback` (dedup + write) and
  `resolve_ticket`.
* `app/workers.py`  : `reconcile_data_worker` and the periodic scheduler
  `run_periodic_reconciliation` (one loop iteration).
* `app/main.py`     : the second, older variant of `reconcile_data_worker`
  (embedded in namespace `MainApp`).

External effects are inputs of the model: the VADER compound score of a text
is a `ℚ` parameter (third-party lexicon library), the LLM upstream behaviour
is an `LLMEnv` value, the race outcome an `RaceOutcome` value, and the
database is an explicit list of rows.  Parsed Python/JSON data is the `JVal`
type.
-/

namespace Aegis

/-! ## JSON values (parsed Python data) -/

mutual

inductive JVal where
  | jnull
  | jbool (b : Bool)
  | jnum (n : Int)
  | jstr (s : String)
  | jarr (xs : JArr)

inductive JArr where
  | nil
  | cons (hd : JVal) (tl : JArr)

end

def JArr.toList : JArr → List JVal
  | .nil => []
  | .cons h t => h :: t.toList

/-- Python single-quote character, used by `repr` of strings. -/
def pyQuote : String := String.mk [Char.ofNat 39]

mutual

/-- Python `repr` of a parsed JSON value (strings are quoted). -/
def pyReprJ : JVal → String
  | .jnull => "None"
  | .jbool true => "True"
  | .jbool false => "False"
  | .jnum n => toString n
  | .jstr s => pyQuote ++ s ++ pyQuote
  | .jarr xs => "[" ++ pyReprArr xs ++ "]"

def pyReprArr : JArr → String
  | .nil => ""
  | .cons h .nil => pyReprJ h
  | .cons h t => pyReprJ h ++ ", " ++ pyReprArr t

end

/-- Python `str(...)` of a parsed JSON value: a string is itself, anything
else prints as its `repr`. -/
def pyStr : JVal → String
  | .jstr s => s
  | v => pyReprJ v

/-- Python truthiness `bool(...)` of a parsed JSON value. -/
def pyTruthy : JVal → Bool
  | .jnull => false
  | .jbool b => b
  | .jnum n => decide (n ≠ 0)
  | .jstr s => decide (s ≠ "")
  | .jarr .nil => false
  | .jarr (.cons _ _) => true

/-! ## Enums and the topic→department mapping (`app/models.py`) -/

inductive AnalysisSource where
  | ai
  | fallback
deriving DecidableEq, Repr

inductive Department where
  | FINANCE
  | ENGINEERING
  | PRODUCT
  | INFOSEC
  | SUPPORT
  | UNASSIGNED
deriving DecidableEq, Repr

inductive TicketStatus where
  | OPEN
  | RESOLVED
deriving DecidableEq, Repr

inductive Priority where
  | LOW
  | MEDIUM
  | HIGH
  | CRITICAL
deriving DecidableEq, Repr

/-- Wire values of the `Sentiment` enum, in declaration order. -/
def validSentiments : List String := ["POSITIVE", "NEGATIVE", "NEUTRAL"]

/-- `TOPIC_TO_DEPT_MAP` of `app/models.py`, in insertion order. -/
def TOPIC_TO_DEPT_MAP : List (String × Department) :=
  [("Billing", .FINANCE), ("Technical", .ENGINEERING), ("UX", .PRODUCT),
   ("Security", .INFOSEC), ("General", .SUPPORT)]

/-- `map_topics_to_department` of `app/logic.py`: the first topic found in
the mapping wins; a topic that is not a string is never a dict key. -/
def map_topics_to_department : List JVal → Department
  | [] => .UNASSIGNED
  | .jstr s :: rest =>
    match TOPIC_TO_DEPT_MAP.lookup s with
    | some d => d
    | none => map_topics_to_department rest
  | _ :: rest => map_topics_to_department rest

/-! ## String helpers (Python `str.lower`, `str.upper`, substring `in`) -/

/-- ASCII lowercasing, per-character (`str.lower` on the ASCII texts the
keyword tables use). -/
def lowerStr (s : String) : String := ⟨s.data.map Char.toLower⟩

/-- ASCII uppercasing, per-character (`str.upper`). -/
def upperStr (s : String) : String := ⟨s.data.map Char.toUpper⟩

/-- Substring occurrence on character lists: Python `needle in hay`. -/
def listIsSubstr : List Char → List Char → Bool
  | n, [] => n.isEmpty
  | n, c :: t => n.isPrefixOf (c :: t) || listIsSubstr n t

/-- Python `needle in hay` for strings. -/
def strContains (hay needle : String) : Bool := listIsSubstr needle.data hay.data

/-! ## Heuristic analyzer (`analyze_heuristic`, app/logic.py lines 50-115)

The VADER compound polarity score of the text is the parameter `compound`
(the lexicon library is external to the repository). -/

structure HeuristicResult where
  sentiment : String
  topics : List String
  is_urgent : Bool
  confidence_score : ℚ
  ai_provider : String
deriving DecidableEq, Repr

/-- The keyword table of `analyze_heuristic`, in insertion order. -/
def keywords : List (String × List String) :=
  [("Billing", ["charge", "credit", "card", "refund", "bill", "invoice", "cost"]),
   ("Technical", ["bug", "crash", "error", "fail", "slow", "login", "app", "500", "404"]),
   ("UX", ["ugly", "confusing", "hard", "color", "button", "nav", "interface"]),
   ("Security", ["password", "hacked", "breach", "suspicious", "auth", "phishing"])]

def danger_keywords : List String :=
  ["lawsuit", "sue", "illegal", "gdpr", "emergency", "fraud", "police"]

def analyze_heuristic (text : String) (compound : ℚ) : HeuristicResult :=
  let sentiment :=
    if compound ≥ 1/20 then "POSITIVE"
    else if compound ≤ -(1/20) then "NEGATIVE"
    else "NEUTRAL"
  let text_lower := lowerStr text
  let topics0 := (keywords.filter (fun p => p.2.any (fun w => strContains text_lower w))).map Prod.fst
  let topics := if topics0.isEmpty then ["General"] else topics0
  let urgent0 := danger_keywords.any (fun w => strContains text_lower w)
  let is_urgent :=
    if sentiment = "NEGATIVE" ∧ compound < -(3/5) then true else urgent0
  { sentiment := sentiment, topics := topics, is_urgent := is_urgent,
    confidence_score := 1/2, ai_provider := "vader-regex" }

/-! ## LLM response validation (`validate_llm_response`, app/logic.py 118-138) -/

structure LLMClassification where
  sentiment : String
  topics : List JVal
  is_urgent : Bool

def validate_llm_response (data : List (String × JVal)) : LLMClassification :=
  let s := upperStr (pyStr ((data.lookup "sentiment").getD (.jstr "")))
  let sentiment := if s ∈ validSentiments then s else "NEUTRAL"
  let topics : List JVal :=
    match data.lookup "topics" with
    | some (.jarr (.cons h t)) => (JArr.cons h t).toList
    | _ => [.jstr "General"]
  let is_urgent := pyTruthy ((data.lookup "is_urgent").getD (.jbool false))
  { sentiment := sentiment, topics := topics, is_urgent := is_urgent }

/-! ## LLM client (`call_llm`, app/logic.py 141-208)

The upstream world is the parameter: `mock` is the mock-mode / no-keys
branch, `reply p j` a provider that returned parseable JSON `j`, and
`failure` any raised error (malformed JSON, transport error, rate limit). -/

inductive LLMEnv where
  | mock
  | reply (provider : String) (json : List (String × JVal))
  | failure

structure CallResult where
  sentiment : String
  topics : List JVal
  is_urgent : Bool
  confidence_score : ℚ
  ai_provider : String

def call_llm (text : String) (compound : ℚ) (env : LLMEnv) : Except Unit CallResult :=
  match env with
  | .mock =>
    let h := analyze_heuristic text compound
    .ok { sentiment := h.sentiment, topics := h.topics.map .jstr,
          is_urgent := h.is_urgent, confidence_score := 19/20,
          ai_provider := "mock-llm" }
  | .reply provider json =>
    let v := validate_llm_response json
    .ok { sentiment := v.sentiment, topics := v.topics, is_urgent := v.is_urgent,
          confidence_score := 99/100, ai_provider := provider }
  | .failure => .error ()

/-! ## Race orchestrator (`analyze_feedback_hybrid`, app/logic.py 211-244) -/

inductive RaceOutcome where
  | timeout
  | completed (env : LLMEnv)

structure HybridResult where
  sentiment : String
  topics : List JVal
  is_urgent : Bool
  confidence_score : ℚ
  ai_provider : String
  source : AnalysisSource
  department : Department

def analyze_feedback_hybrid (clean_text : String) (compound : ℚ)
    (race : RaceOutcome) : HybridResult :=
  let h := analyze_heuristic clean_text compound
  let fallbackR : HybridResult :=
    { sentiment := h.sentiment, topics := h.topics.map .jstr,
      is_urgent := h.is_urgent, confidence_score := h.confidence_score,
      ai_provider := h.ai_provider, source := .fallback, department := .UNASSIGNED }
  let pre : HybridResult :=
    match race with
    | .timeout => fallbackR
    | .completed env =>
      match call_llm clean_text compound env with
      | .ok ai =>
        { sentiment := ai.sentiment, topics := ai.topics, is_urgent := ai.is_urgent,
          confidence_score := ai.confidence_score, ai_provider := ai.ai_provider,
          source := .ai, department := .UNASSIGNED }
      | .error _ => fallbackR
  { pre with department := map_topics_to_department pre.topics }

/-! ## Sanitization (`sanitize_text`, app/logic.py 32-39)

`re.sub(r"<[^>]*>", "", text)` scans left to right; at an unconsumed `<`
the greedy `[^>]*` runs to the first later `>` and the whole span is
deleted; a `<` with no later `>` matches nothing and is kept.  The scan is
written with an explicit fuel (the text length) so that it is structural
and kernel-evaluable. -/

/-- The suffix after the first `>` of the list, when there is one. -/
def splitGt : List Char → Option (List Char)
  | [] => none
  | c :: rest => if c = '>' then some rest else splitGt rest

def stripTagsF : Nat → List Char → List Char
  | 0, cs => cs
  | _ + 1, [] => []
  | fuel + 1, c :: rest =>
    if c = '<' then
      match splitGt rest with
      | some rest2 => stripTagsF fuel rest2
      | none => c :: stripTagsF fuel rest
    else c :: stripTagsF fuel rest

def stripTags (cs : List Char) : List Char := stripTagsF cs.length cs

/-- `sanitize_text`: strip `<...>` spans, truncate to 512 characters. -/
def sanitize_text (s : String) : String := ⟨(stripTags s.data).take 512⟩

theorem splitGt_length {cs rest : List Char} (h : splitGt cs = some rest) :
    rest.length < cs.length := by
  induction cs generalizing rest with
  | nil => simp [splitGt] at h
  | cons c t ih =>
    by_cases hc : c = '>'
    · simp [splitGt, hc] at h
      simp [← h]
    · simp [splitGt, hc] at h
      exact Nat.lt_trans (ih h) (Nat.lt_succ_self _)

theorem splitGt_eq_none {cs : List Char} (h : '>' ∉ cs) : splitGt cs = none := by
  induction cs with
  | nil => rfl
  | cons c t ih =>
    rw [List.mem_cons] at h
    push_neg at h
    have hc : ¬ c = '>' := fun e => h.1 e.symm
    simp only [splitGt, hc, ite_false]
    exact ih h.2

theorem not_mem_of_splitGt_none {cs : List Char} (h : splitGt cs = none) :
    '>' ∉ cs := by
  induction cs with
  | nil => simp
  | cons c t ih =>
    by_cases hc : c = '>'
    · simp [splitGt, hc] at h
    · simp only [splitGt, hc, ite_false] at h
      rw [List.mem_cons]
      push_neg
      exact ⟨fun e => hc e.symm, ih h⟩

theorem mem_of_mem_splitGt {cs rest : List Char} {a : Char}
    (h : splitGt cs = some rest) (ha : a ∈ rest) : a ∈ cs := by
  induction cs generalizing rest with
  | nil => simp [splitGt] at h
  | cons c t ih =>
    by_cases hc : c = '>'
    · simp [splitGt, hc] at h
      subst h
      exact List.mem_cons_of_mem _ ha
    · simp only [splitGt, hc, ite_false] at h
      exact List.mem_cons_of_mem _ (ih h ha)

/-- Fuel is irrelevant once it covers the length of the list. -/
theorem stripTagsF_congr :
    ∀ (f g : Nat) (cs : List Char), cs.length ≤ f → cs.length ≤ g →
      stripTagsF f cs = stripTagsF g cs := by
  intro f
  induction f with
  | zero =>
    intro g cs hf _
    have : cs = [] := List.length_eq_zero.mp (Nat.le_zero.mp hf)
    subst this
    cases g <;> rfl
  | succ f ih =>
    intro g cs hf hg
    cases cs with
    | nil => cases g <;> rfl
    | cons c rest =>
      cases g with
      | zero => simp at hg
      | succ g =>
        simp only [List.length_cons, Nat.add_le_add_iff_right] at hf hg
        by_cases hc : c = '<'
        · simp only [stripTagsF, hc, if_pos]
          cases hsp : splitGt rest with
          | some rest2 =>
            have : rest2.length < rest.length := splitGt_length hsp
            exact ih g rest2 (by omega) (by omega)
          | none => rw [ih g rest hf hg]
        · simp only [stripTagsF, hc, ite_false]
          rw [ih g rest hf hg]

theorem stripTags_cons (c : Char) (rest : List Char) :
    stripTags (c :: rest) =
      if c = '<' then
        match splitGt rest with
        | some rest2 => stripTags rest2
        | none => c :: stripTags rest
      else c :: stripTags rest := by
  show stripTagsF (rest.length + 1) (c :: rest) = _
  by_cases hc : c = '<'
  · simp only [stripTagsF, hc, if_pos]
    cases hsp : splitGt rest with
    | some rest2 =>
      have : rest2.length < rest.length := splitGt_length hsp
      exact stripTagsF_congr _ _ _ (by omega) (le_refl _)
    | none => rfl
  · simp only [stripTagsF, hc, ite_false]
    rfl

/-- Members of the stripped list are members of the input. -/
theorem mem_of_mem_stripTagsF :
    ∀ (f : Nat) (cs : List Char), cs.length ≤ f →
      ∀ a, a ∈ stripTagsF f cs → a ∈ cs := by
  intro f
  induction f with
  | zero =>
    intro cs hf a ha
    have : cs = [] := List.length_eq_zero.mp (Nat.le_zero.mp hf)
    subst this
    simpa [stripTagsF] using ha
  | succ f ih =>
    intro cs hf a ha
    cases cs with
    | nil => simpa [stripTagsF] using ha
    | cons c rest =>
      simp only [List.length_cons, Nat.add_le_add_iff_right] at hf
      by_cases hc : c = '<'
      · simp only [stripTagsF, hc, if_pos] at ha
        cases hsp : splitGt rest with
        | some rest2 =>
          rw [hsp] at ha
          have hlen : rest2.length < rest.length := splitGt_length hsp
          exact List.mem_cons_of_mem _
            (mem_of_mem_splitGt hsp (ih rest2 (by omega) a ha))
        | none =>
          rw [hsp] at ha
          rcases List.mem_cons.mp ha with h | h
          · simp [h, hc]
          · exact List.mem_cons_of_mem _ (ih rest hf a h)
      · simp only [stripTagsF, hc, ite_false] at ha
        rcases List.mem_cons.mp ha with h | h
        · simp [h]
        · exact List.mem_cons_of_mem _ (ih rest hf a h)

/-- A regex match is present iff some `<` still has a later `>`. -/
def hasTag : List Char → Bool
  | [] => false
  | c :: rest => (decide (c = '<') && (splitGt rest).isSome) || hasTag rest

/-- Stripping leaves no match behind. -/
theorem hasTag_stripTagsF :
    ∀ (f : Nat) (cs : List Char), cs.length ≤ f →
      hasTag (stripTagsF f cs) = false := by
  intro f
  induction f with
  | zero =>
    intro cs hf
    have : cs = [] := List.length_eq_zero.mp (Nat.le_zero.mp hf)
    subst this
    rfl
  | succ f ih =>
    intro cs hf
    cases cs with
    | nil => rfl
    | cons c rest =>
      simp only [List.length_cons, Nat.add_le_add_iff_right] at hf
      by_cases hc : c = '<'
      · simp only [stripTagsF, hc, if_pos]
        cases hsp : splitGt rest with
        | some rest2 =>
          have : rest2.length < rest.length := splitGt_length hsp
          exact ih rest2 (by omega)
        | none =>
          have hgt : '>' ∉ stripTagsF f rest := fun hmem =>
            not_mem_of_splitGt_none hsp (mem_of_mem_stripTagsF f rest hf '>' hmem)
          simp only [hasTag, ih rest hf, Bool.or_false,
            splitGt_eq_none hgt, Option.isSome_none, Bool.and_false]
      · simp only [stripTagsF, hc, ite_false]
        simp only [hasTag, hc, decide_False, Bool.false_and, Bool.false_or]
        exact ih rest hf

/-- On a match-free list, stripping is the identity. -/
theorem stripTagsF_of_hasTag_eq_false :
    ∀ (f : Nat) (cs : List Char), cs.length ≤ f → hasTag cs = false →
      stripTagsF f cs = cs := by
  intro f
  induction f with
  | zero =>
    intro cs hf _
    have : cs = [] := List.length_eq_zero.mp (Nat.le_zero.mp hf)
    simp [this, stripTagsF]
  | succ f ih =>
    intro cs hf h
    cases cs with
    | nil => rfl
    | cons c rest =>
      simp only [List.length_cons, Nat.add_le_add_iff_right] at hf
      simp only [hasTag, Bool.or_eq_false_iff, Bool.and_eq_false_iff] at h
      by_cases hc : c = '<'
      · have hnone : splitGt rest = none := by
          rcases h.1 with h1 | h1
          · exact absurd hc (of_decide_eq_false h1)
          · exact Option.not_isSome_iff_eq_none.mp (by simp [h1])
        simp only [stripTagsF, hc, if_pos, hnone]
        rw [ih rest hf h.2]
      · simp only [stripTagsF, hc, ite_false]
        rw [ih rest hf h.2]

/-- A prefix of a match-free list is match-free. -/
theorem hasTag_take {cs : List Char} (h : hasTag cs = false) (n : Nat) :
    hasTag (cs.take n) = false := by
  induction cs generalizing n with
  | nil => simp [hasTag]
  | cons c rest ih =>
    cases n with
    | zero => rfl
    | succ n =>
      simp only [hasTag, Bool.or_eq_false_iff, Bool.and_eq_false_iff] at h
      simp only [List.take_cons, hasTag, Bool.or_eq_false_iff,
        Bool.and_eq_false_iff]
      refine ⟨?_, ih h.2 n⟩
      rcases h.1 with h1 | h1
      · exact Or.inl h1
      · right
        have : splitGt rest = none := Option.not_isSome_iff_eq_none.mp (by simp [h1])
        have hgt : '>' ∉ rest.take n := fun hmem =>
          not_mem_of_splitGt_none this (List.take_subset n rest hmem)
        simp [splitGt_eq_none hgt]

theorem stripTags_of_hasTag_eq_false {cs : List Char} (h : hasTag cs = false) :
    stripTags cs = cs :=
  stripTagsF_of_hasTag_eq_false _ _ (le_refl _) h

theorem hasTag_stripTags (cs : List Char) : hasTag (stripTags cs) = false :=
  hasTag_stripTagsF _ _ (le_refl _)

/-- C9: the sanitize function (regex deletion of `<...>` spans followed by
truncation to 512 characters) is idempotent: for every string x,
`sanitize_text (sanitize_text x) = sanitize_text x`. -/
theorem sanitize_text_idempotent (x : String) :
    sanitize_text (sanitize_text x) = sanitize_text x := by
  show String.mk ((stripTags ((stripTags x.data).take 512)).take 512)
      = String.mk ((stripTags x.data).take 512)
  rw [stripTags_of_hasTag_eq_false (hasTag_take (hasTag_stripTags _) _),
    List.take_take]
  simp

/-! ## SHA-256 (`Feedback.generate_hash`, app/models.py 131-134)

`hashlib.sha256(text.encode("utf-8")).hexdigest()`: the FIPS 180-4
algorithm over the UTF-8 bytes, rendered as lowercase hex.  Words are `Nat`
reduced mod `2^32`. -/

def w32 (n : Nat) : Nat := n % 4294967296

def rotr (k x : Nat) : Nat := w32 ((x >>> k) ||| (x <<< (32 - k)))

def shaCh (x y z : Nat) : Nat := (x &&& y) ^^^ ((x ^^^ 4294967295) &&& z)

def shaMaj (x y z : Nat) : Nat := (x &&& y) ^^^ (x &&& z) ^^^ (y &&& z)

def bigSigma0 (x : Nat) : Nat := rotr 2 x ^^^ rotr 13 x ^^^ rotr 22 x

def bigSigma1 (x : Nat) : Nat := rotr 6 x ^^^ rotr 11 x ^^^ rotr 25 x

def smallSigma0 (x : Nat) : Nat := rotr 7 x ^^^ rotr 18 x ^^^ (x >>> 3)

def smallSigma1 (x : Nat) : Nat := rotr 17 x ^^^ rotr 19 x ^^^ (x >>> 10)

def shaK : List Nat :=
  [1116352408, 1899447441, 3049323471, 3921009573, 961987163,
   1508970993, 2453635748, 2870763221, 3624381080, 310598401,
   607225278, 1426881987, 1925078388, 2162078206, 2614888103,
   3248222580, 3835390401, 4022224774, 264347078, 604807628,
   770255983, 1249150122, 1555081692, 1996064986, 2554220882,
   2821834349, 2952996808, 3210313671, 3336571891, 3584528711,
   113926993, 338241895, 666307205, 773529912, 1294757372,
   1396182291, 1695183700, 1986661051, 2177026350, 2456956037,
   2730485921, 2820302411, 3259730800, 3345764771, 3516065817,
   3600352804, 4094571909, 275423344, 430227734, 506948616,
   659060556, 883997877, 958139571, 1322822218, 1537002063,
   1747873779, 1955562222, 2024104815, 2227730452, 2361852424,
   2428436474, 2756734187, 3204031479, 3329325298]

def shaH0 : List Nat :=
  [1779033703, 3144134277, 1013904242, 2773480762,
   1359893119, 2600822924, 528734635, 1541459225]

/-- Extend the 16-word block to the 64-word message schedule. -/
def scheduleStep (w : List Nat) : List Nat :=
  w ++ [w32 (smallSigma1 (w.getD (w.length - 2) 0) + w.getD (w.length - 7) 0 +
             smallSigma0 (w.getD (w.length - 15) 0) + w.getD (w.length - 16) 0)]

def schedule (block : List Nat) : List Nat := scheduleStep^[48] block

def compressRound (st : List Nat) (kw : Nat × Nat) : List Nat :=
  let a := st.getD 0 0
  let b := st.getD 1 0
  let c := st.getD 2 0
  let d := st.getD 3 0
  let e := st.getD 4 0
  let f := st.getD 5 0
  let g := st.getD 6 0
  let h := st.getD 7 0
  let t1 := w32 (h + bigSigma1 e + shaCh e f g + kw.1 + kw.2)
  let t2 := w32 (bigSigma0 a + shaMaj a b c)
  [w32 (t1 + t2), a, b, c, w32 (d + t1), e, f, g]

def compressBlock (h : List Nat) (block : List Nat) : List Nat :=
  let st := (shaK.zip (schedule block)).foldl compressRound h
  (h.zip st).map (fun p => w32 (p.1 + p.2))

/-- Groups a byte list into big-endian 32-bit words. -/
def bytesToWords : List Nat → List Nat
  | b0 :: b1 :: b2 :: b3 :: rest =>
    (((b0 * 256 + b1) * 256 + b2) * 256 + b3) :: bytesToWords rest
  | _ => []

def chunks16F : Nat → List Nat → List (List Nat)
  | 0, _ => []
  | _ + 1, [] => []
  | f + 1, w :: rest => (w :: rest).take 16 :: chunks16F f ((w :: rest).drop 16)

def chunks16 (ws : List Nat) : List (List Nat) := chunks16F ws.length ws

/-- Big-endian 8-byte encoding of the bit length. -/
def lenBytes (n : Nat) : List Nat :=
  [56, 48, 40, 32, 24, 16, 8, 0].map (fun s => (n >>> s) % 256)

/-- SHA-256 padding: `0x80`, zeros to 56 mod 64, 8-byte bit length. -/
def padBytes (msg : List Nat) : List Nat :=
  let L := msg.length
  let k := (120 - ((L + 1) % 64)) % 64
  msg ++ [128] ++ List.replicate k 0 ++ lenBytes (8 * L)

/-- The eight 32-bit hash words of a byte message. -/
def sha256 (msg : List Nat) : List Nat :=
  (chunks16 (bytesToWords (padBytes msg))).foldl compressBlock shaH0

/-- UTF-8 encoding of one character (`str.encode("utf-8")`). -/
def utf8Char (c : Char) : List Nat :=
  let n := c.toNat
  if n < 128 then [n]
  else if n < 2048 then [192 + n / 64, 128 + n % 64]
  else if n < 65536 then [224 + n / 4096, 128 + (n / 64) % 64, 128 + n % 64]
  else [240 + n / 262144, 128 + (n / 4096) % 64, 128 + (n / 64) % 64, 128 + n % 64]

def utf8Bytes (s : String) : List Nat := (s.data.map utf8Char).join

def hexDigit (n : Nat) : Char :=
  if n < 10 then Char.ofNat (48 + n) else Char.ofNat (87 + n)

/-- Lowercase hex of one 32-bit word, eight digits. -/
def wordHex (w : Nat) : List Char :=
  [28, 24, 20, 16, 12, 8, 4, 0].map (fun s => hexDigit ((w >>> s) % 16))

/-- `Feedback.generate_hash`: lowercase hex SHA-256 of the UTF-8 bytes. -/
def Feedback.generate_hash (text : String) : String :=
  ⟨((sha256 (utf8Bytes text)).map wordHex).join⟩

/-! ## The Feedback row and the store (`app/models.py`, `app/database.py`)

The store is the list of rows in engine order (a query without `ORDER BY`
returns rows in the engine's own order).  Row ids and timestamps are
opaque `Nat` parameters supplied at creation. -/

structure Feedback where
  id : Nat
  created_at : Nat
  raw_content : String
  content_hash : String
  sentiment : String
  topics : List JVal
  is_urgent : Bool
  confidence_score : ℚ
  status : TicketStatus
  priority : Priority
  resolution_note : Option String
  needs_review : Bool
  department : Department
  ai_provider : String
  source : AnalysisSource

abbrev Store := List Feedback

/-- `SELECT ... WHERE content_hash = h` followed by `.first()`. -/
def findByHash (store : Store) (h : String) : Option Feedback :=
  List.find? (fun r => decide (r.content_hash = h)) store

/-- `session.get(Feedback, id)`. -/
def findById (store : Store) (i : Nat) : Option Feedback :=
  List.find? (fun r => decide (r.id = i)) store

/-- Commit of a mutation of the row with the given id. -/
def updateById (store : Store) (i : Nat) (f : Feedback → Feedback) : Store :=
  store.map (fun r => if r.id = i then f r else r)

/-- Row construction `Feedback(raw_content=..., content_hash=..., **result)`
with the model defaults of `app/models.py`. -/
def Feedback.fromAnalysis (newId newTime : Nat) (raw hsh : String)
    (res : HybridResult) : Feedback :=
  { id := newId, created_at := newTime, raw_content := raw, content_hash := hsh,
    sentiment := res.sentiment, topics := res.topics, is_urgent := res.is_urgent,
    confidence_score := res.confidence_score, status := .OPEN,
    priority := .MEDIUM, resolution_note := none, needs_review := false,
    department := res.department, ai_provider := res.ai_provider,
    source := res.source }

structure IngestReply where
  record : Feedback
  duplicate : Bool

/-! ## Ingestion (`ingest_feedback`, app/routers/feedback.py 31-82)

`preStore` is the store at the dedup pre-check read, `writeStore` the store
at the insert (another writer may have committed in between); the unique
index on `content_hash` raises `IntegrityError` when the insert conflicts,
which is answered by re-reading and returning the existing row.  The
returned flag is the `X-Status: Duplicate` header. -/

def ingest_feedback (preStore writeStore : Store) (raw : String)
    (compound : ℚ) (race : RaceOutcome) (newId newTime : Nat) :
    IngestReply × Store :=
  let clean := sanitize_text raw
  let hsh := Feedback.generate_hash clean
  match findByHash preStore hsh with
  | some existing => ({ record := existing, duplicate := true }, writeStore)
  | none =>
    let result := analyze_feedback_hybrid clean compound race
    let newRec := Feedback.fromAnalysis newId newTime raw hsh result
    match findByHash writeStore hsh with
    | some existing => ({ record := existing, duplicate := true }, writeStore)
    | none => ({ record := newRec, duplicate := false }, writeStore ++ [newRec])

/-- Ingestion with no interleaved writer: pre-check and insert see the same
store. -/
def ingest_seq (store : Store) (raw : String) (compound : ℚ)
    (race : RaceOutcome) (newId newTime : Nat) : IngestReply × Store :=
  ingest_feedback store store raw compound race newId newTime

/-- Repeated sequential submission of the same text, with per-round
analysis environments. -/
def iterate_ingest (raw : String) (cf : Nat → ℚ) (rf : Nat → RaceOutcome)
    (idf tf : Nat → Nat) : Store → Nat → Store
  | s, 0 => s
  | s, n + 1 =>
    iterate_ingest raw cf rf idf tf (ingest_seq s raw (cf n) (rf n) (idf n) (tf n)).2 n

/-- Rows carrying a given content hash. -/
def countHash (store : Store) (h : String) : Nat :=
  (store.filter (fun r => decide (r.content_hash = h))).length

/-! ## Resolution (`resolve_ticket`, app/routers/feedback.py 94-111) -/

def resolve_ticket (store : Store) (fid : Nat) (note : Option String) :
    Option Store :=
  match findById store fid with
  | none => none
  | some _ =>
    some (updateById store fid (fun r =>
      { r with status := .RESOLVED, needs_review := false,
               resolution_note := note }))

/-! ## Reconciliation worker (`reconcile_data_worker`, app/workers.py 22-75)

`snapStore` is the store at the snapshot read, `writeStore` the store at
the write-phase re-read (the row may have changed in between). -/

namespace Workers

def reconcile_data_worker (snapStore writeStore : Store) (fid : Nat)
    (compound : ℚ) (env : LLMEnv) : Store :=
  match findById snapStore fid with
  | none => writeStore
  | some fb =>
    if fb.source = .fallback then
      match call_llm (sanitize_text fb.raw_content) compound env with
      | .error _ => writeStore
      | .ok ai =>
        match findById writeStore fid with
        | none => writeStore
        | some live =>
          let missed := ai.is_urgent && !fb.is_urgent
          updateById writeStore fid (fun _ =>
            { live with
              sentiment := ai.sentiment, topics := ai.topics,
              is_urgent := ai.is_urgent, source := .ai,
              ai_provider := ai.ai_provider,
              department := map_topics_to_department ai.topics,
              needs_review := if missed then true else live.needs_review })
    else writeStore

end Workers

/-! ## Older worker variant (`reconcile_data_worker`, app/main.py 38-84)

One session: snapshot and write see the same store.  It re-analyzes the
raw (unsanitized) content, flags review on missed urgency or on sentiment
mismatch with an urgent AI result, and does not touch `department`. -/

namespace MainApp

def reconcile_data_worker (store : Store) (fid : Nat) (compound : ℚ)
    (env : LLMEnv) : Store :=
  match findById store fid with
  | none => store
  | some fb =>
    if fb.source = .ai then store
    else
      match call_llm fb.raw_content compound env with
      | .error _ => store
      | .ok ai =>
        let sentiment_mismatch := decide (fb.sentiment ≠ ai.sentiment)
        let missed_urgency := ai.is_urgent && !fb.is_urgent
        updateById store fid (fun r =>
          { r with
            sentiment := ai.sentiment, topics := ai.topics,
            is_urgent := ai.is_urgent, source := .ai,
            ai_provider := ai.ai_provider,
            needs_review :=
              if missed_urgency || (sentiment_mismatch && ai.is_urgent)
              then true else r.needs_review })

end MainApp

/-! ## Periodic scheduler (`run_periodic_reconciliation`, app/workers.py 116-136)

One loop iteration: `SELECT ... WHERE source = FALLBACK LIMIT 10` (no
`ORDER BY`), then the worker runs on each selected id in turn. -/

def scheduler_select (store : Store) : List Feedback :=
  (store.filter (fun r => decide (r.source = .fallback))).take 10

def run_periodic_reconciliation_iteration (store : Store)
    (cf : Nat → ℚ) (ef : Nat → LLMEnv) : Store :=
  (scheduler_select store).foldl
    (fun st item => Workers.reconcile_data_worker st st item.id (cf item.id) (ef item.id))
    store

/-! ## Heuristic analyzer: characterization lemmas -/

theorem heuristic_sentiment_eq (text : String) (compound : ℚ) :
    (analyze_heuristic text compound).sentiment =
      (if compound ≥ 1/20 then "POSITIVE"
       else if compound ≤ -(1/20) then "NEGATIVE" else "NEUTRAL") := rfl

theorem heuristic_topics_eq (text : String) (compound : ℚ) :
    (analyze_heuristic text compound).topics =
      (if ((keywords.filter (fun p =>
              p.2.any (fun w => strContains (lowerStr text) w))).map Prod.fst).isEmpty
       then ["General"]
       else (keywords.filter (fun p =>
              p.2.any (fun w => strContains (lowerStr text) w))).map Prod.fst) := rfl

theorem heuristic_urgent_eq (text : String) (compound : ℚ) :
    (analyze_heuristic text compound).is_urgent =
      (if (analyze_heuristic text compound).sentiment = "NEGATIVE" ∧ compound < -(3/5)
       then true
       else danger_keywords.any (fun w => strContains (lowerStr text) w)) := rfl

theorem heuristic_topics_spec (text : String) (compound : ℚ) :
    ("Billing" ∈ (analyze_heuristic text compound).topics ↔
      (["charge", "credit", "card", "refund", "bill", "invoice", "cost"].any
        (fun w => strContains (lowerStr text) w)) = true)
    ∧ ("Technical" ∈ (analyze_heuristic text compound).topics ↔
      (["bug", "crash", "error", "fail", "slow", "login", "app", "500", "404"].any
        (fun w => strContains (lowerStr text) w)) = true)
    ∧ ("UX" ∈ (analyze_heuristic text compound).topics ↔
      (["ugly", "confusing", "hard", "color", "button", "nav", "interface"].any
        (fun w => strContains (lowerStr text) w)) = true)
    ∧ ("Security" ∈ (analyze_heuristic text compound).topics ↔
      (["password", "hacked", "breach", "suspicious", "auth", "phishing"].any
        (fun w => strContains (lowerStr text) w)) = true)
    ∧ (analyze_heuristic text compound).topics ≠ []
    ∧ ("General" ∈ (analyze_heuristic text compound).topics ↔
      ((["charge", "credit", "card", "refund", "bill", "invoice", "cost"].any
          (fun w => strContains (lowerStr text) w)) = false
       ∧ (["bug", "crash", "error", "fail", "slow", "login", "app", "500", "404"].any
          (fun w => strContains (lowerStr text) w)) = false
       ∧ (["ugly", "confusing", "hard", "color", "button", "nav", "interface"].any
          (fun w => strContains (lowerStr text) w)) = false
       ∧ (["password", "hacked", "breach", "suspicious", "auth", "phishing"].any
          (fun w => strContains (lowerStr text) w)) = false)) := by
  rw [heuristic_topics_eq]
  simp only [keywords, List.filter_cons, List.filter_nil]
  cases hB : ["charge", "credit", "card", "refund", "bill", "invoice", "cost"].any
      (fun w => strContains (lowerStr text) w) <;>
  cases hT : ["bug", "crash", "error", "fail", "slow", "login", "app", "500", "404"].any
      (fun w => strContains (lowerStr text) w) <;>
  cases hU : ["ugly", "confusing", "hard", "color", "button", "nav", "interface"].any
      (fun w => strContains (lowerStr text) w) <;>
  cases hS : ["password", "hacked", "breach", "suspicious", "auth", "phishing"].any
      (fun w => strContains (lowerStr text) w) <;>
  simp_all <;> decide

theorem heuristic_topics_order (text : String) (compound : ℚ) :
    (analyze_heuristic text compound).topics = ["General"]
    ∨ (analyze_heuristic text compound).topics.Sublist
        ["Billing", "Technical", "UX", "Security"] := by
  rw [heuristic_topics_eq]
  by_cases he : ((keywords.filter (fun p =>
      p.2.any (fun w => strContains (lowerStr text) w))).map Prod.fst).isEmpty
  · left
    simp [he]
  · right
    simp only [he, ite_false]
    exact (List.filter_sublist keywords).map Prod.fst

/-- C6: the heuristic analyzer is a total function of the text and the
VADER compound score with: sentiment POSITIVE iff compound ≥ 0.05,
NEGATIVE iff compound ≤ -0.05, else NEUTRAL; topics every keyword category
with a case-insensitive substring match, in the fixed table order, with
fallback `["General"]`; urgency iff a danger keyword occurs or the
sentiment is NEGATIVE with compound < -0.6; and confidence 0.5 with the
heuristic provider tag. -/
theorem analyze_heuristic_characterization (text : String) (compound : ℚ) :
    ((analyze_heuristic text compound).sentiment = "POSITIVE" ↔ 1/20 ≤ compound)
    ∧ ((analyze_heuristic text compound).sentiment = "NEGATIVE" ↔ compound ≤ -(1/20))
    ∧ ((analyze_heuristic text compound).sentiment = "NEUTRAL" ↔
        (-(1/20) < compound ∧ compound < 1/20))
    ∧ ("Billing" ∈ (analyze_heuristic text compound).topics ↔
      (["charge", "credit", "card", "refund", "bill", "invoice", "cost"].any
        (fun w => strContains (lowerStr text) w)) = true)
    ∧ ("Technical" ∈ (analyze_heuristic text compound).topics ↔
      (["bug", "crash", "error", "fail", "slow", "login", "app", "500", "404"].any
        (fun w => strContains (lowerStr text) w)) = true)
    ∧ ("UX" ∈ (analyze_heuristic text compound).topics ↔
      (["ugly", "confusing", "hard", "color", "button", "nav", "interface"].any
        (fun w => strContains (lowerStr text) w)) = true)
    ∧ ("Security" ∈ (analyze_heuristic text compound).topics ↔
      (["password", "hacked", "breach", "suspicious", "auth", "phishing"].any
        (fun w => strContains (lowerStr text) w)) = true)
    ∧ (analyze_heuristic text compound).topics ≠ []
    ∧ ((analyze_heuristic text compound).topics = ["General"]
       ∨ (analyze_heuristic text compound).topics.Sublist
           ["Billing", "Technical", "UX", "Security"])
    ∧ ((analyze_heuristic text compound).is_urgent = true ↔
        (danger_keywords.any (fun w => strContains (lowerStr text) w) = true
         ∨ ((analyze_heuristic text compound).sentiment = "NEGATIVE"
             ∧ compound < -(3/5))))
    ∧ (analyze_heuristic text compound).confidence_score = 1/2
    ∧ (analyze_heuristic text compound).ai_provider = "vader-regex" := by
  obtain ⟨tB, tT, tU, tS, tNe, _⟩ := heuristic_topics_spec text compound
  refine ⟨?_, ?_, ?_, tB, tT, tU, tS, tNe, heuristic_topics_order text compound,
    ?_, rfl, rfl⟩
  · rw [heuristic_sentiment_eq]
    split_ifs with h1 h2
    · exact iff_of_true rfl h1
    · exact iff_of_false (by decide) (fun hc => h1 hc)
    · exact iff_of_false (by decide) (fun hc => h1 hc)
  · rw [heuristic_sentiment_eq]
    split_ifs with h1 h2
    · exact iff_of_false (by decide) (fun hc => by
        have : (1 : ℚ)/20 ≤ compound := h1
        linarith)
    · exact iff_of_true rfl h2
    · exact iff_of_false (by decide) h2
  · rw [heuristic_sentiment_eq]
    split_ifs with h1 h2
    · exact iff_of_false (by decide) (fun hc => by
        have : (1 : ℚ)/20 ≤ compound := h1
        linarith [hc.2])
    · exact iff_of_false (by decide) (fun hc => by linarith [hc.1])
    · exact iff_of_true rfl ⟨by linarith [not_le.mp h2], not_le.mp h1⟩
  · rw [heuristic_urgent_eq]
    by_cases hneg : (analyze_heuristic text compound).sentiment = "NEGATIVE"
        ∧ compound < -(3/5)
    · rw [if_pos hneg]
      exact iff_of_true rfl (Or.inr hneg)
    · rw [if_neg hneg]
      exact ⟨Or.inl, fun h => h.elim id (fun hc => absurd hc hneg)⟩

/-! ## LLM response validation: characterization -/

theorem validate_sentiment_eq (data : List (String × JVal)) :
    (validate_llm_response data).sentiment =
      (if upperStr (pyStr ((data.lookup "sentiment").getD (.jstr ""))) ∈ validSentiments
       then upperStr (pyStr ((data.lookup "sentiment").getD (.jstr "")))
       else "NEUTRAL") := rfl

theorem validate_topics_eq (data : List (String × JVal)) :
    (validate_llm_response data).topics =
      (match data.lookup "topics" with
       | some (.jarr (.cons h t)) => (JArr.cons h t).toList
       | _ => [.jstr "General"]) := rfl

theorem validate_urgent_eq (data : List (String × JVal)) :
    (validate_llm_response data).is_urgent =
      pyTruthy ((data.lookup "is_urgent").getD (.jbool false)) := rfl

/-- C7: response validation uppercases the sentiment and falls back to
NEUTRAL outside the enum (also when absent); replaces topics by
`["General"]` when absent, not a list, or empty, retaining unknown tags
otherwise; coerces `is_urgent` by truthiness with absence meaning false;
and on `{"sentiment": "SUPER_HAPPY", "topics": "NotAList"}` yields
NEUTRAL, `["General"]`, false. -/
theorem validate_llm_response_characterization (data : List (String × JVal)) :
    (validate_llm_response data).sentiment ∈ validSentiments
    ∧ (∀ j, data.lookup "sentiment" = some j →
        upperStr (pyStr j) ∈ validSentiments →
        (validate_llm_response data).sentiment = upperStr (pyStr j))
    ∧ (∀ j, data.lookup "sentiment" = some j →
        upperStr (pyStr j) ∉ validSentiments →
        (validate_llm_response data).sentiment = "NEUTRAL")
    ∧ (data.lookup "sentiment" = none →
        (validate_llm_response data).sentiment = "NEUTRAL")
    ∧ (∀ h t, data.lookup "topics" = some (.jarr (.cons h t)) →
        (validate_llm_response data).topics = (JArr.cons h t).toList)
    ∧ ((∀ h t, data.lookup "topics" ≠ some (.jarr (.cons h t))) →
        (validate_llm_response data).topics = [.jstr "General"])
    ∧ (data.lookup "is_urgent" = none →
        (validate_llm_response data).is_urgent = false)
    ∧ (∀ j, data.lookup "is_urgent" = some j →
        (validate_llm_response data).is_urgent = pyTruthy j)
    ∧ validate_llm_response
        [("sentiment", .jstr "SUPER_HAPPY"), ("topics", .jstr "NotAList")]
      = { sentiment := "NEUTRAL", topics := [.jstr "General"], is_urgent := false } := by
  refine ⟨?_, ?_, ?_, ?_, ?_, ?_, ?_, ?_, rfl⟩
  · rw [validate_sentiment_eq]
    split_ifs with h
    · exact h
    · decide
  · intro j hj hmem
    rw [validate_sentiment_eq, hj]
    exact if_pos hmem
  · intro j hj hmem
    rw [validate_sentiment_eq, hj]
    exact if_neg hmem
  · intro hj
    rw [validate_sentiment_eq, hj]
    decide
  · intro h t hj
    rw [validate_topics_eq, hj]
  · intro hbad
    rw [validate_topics_eq]
    rcases hl : data.lookup "topics" with _ | j
    · rfl
    · cases j with
      | jarr a =>
        cases a with
        | nil => rfl
        | cons h t => exact absurd hl (hbad h t)
      | jnull => rfl
      | jbool b => rfl
      | jnum n => rfl
      | jstr s => rfl
  · intro hj
    rw [validate_urgent_eq, hj]
    rfl
  · intro j hj
    rw [validate_urgent_eq, hj]
    rfl

/-! ## Race orchestrator: per-case equations -/

theorem hybrid_timeout_eq (text : String) (compound : ℚ) :
    analyze_feedback_hybrid text compound .timeout =
      { sentiment := (analyze_heuristic text compound).sentiment,
        topics := (analyze_heuristic text compound).topics.map .jstr,
        is_urgent := (analyze_heuristic text compound).is_urgent,
        confidence_score := (analyze_heuristic text compound).confidence_score,
        ai_provider := (analyze_heuristic text compound).ai_provider,
        source := .fallback,
        department := map_topics_to_department
          ((analyze_heuristic text compound).topics.map .jstr) } := rfl

theorem hybrid_ok_eq (text : String) (compound : ℚ) (env : LLMEnv)
    (ai : CallResult) (h : call_llm text compound env = .ok ai) :
    analyze_feedback_hybrid text compound (.completed env) =
      { sentiment := ai.sentiment, topics := ai.topics,
        is_urgent := ai.is_urgent, confidence_score := ai.confidence_score,
        ai_provider := ai.ai_provider, source := .ai,
        department := map_topics_to_department ai.topics } := by
  simp only [analyze_feedback_hybrid, h]

theorem hybrid_err_eq (text : String) (compound : ℚ) (env : LLMEnv)
    (h : call_llm text compound env = .error ()) :
    analyze_feedback_hybrid text compound (.completed env) =
      analyze_feedback_hybrid text compound .timeout := by
  simp only [analyze_feedback_hybrid, h]

theorem call_llm_reply_eq (text : String) (compound : ℚ) (p : String)
    (json : List (String × JVal)) :
    call_llm text compound (.reply p json) =
      .ok { sentiment := (validate_llm_response json).sentiment,
            topics := (validate_llm_response json).topics,
            is_urgent := (validate_llm_response json).is_urgent,
            confidence_score := 99/100, ai_provider := p } := rfl

/-- C1: the returned source is authoritative.  `source = ai` iff the LLM
call completed with a valid (validated) result, and then the returned
classification is that result — for a provider reply, the validated JSON;
`source = fallback` on the race timeout and on any LLM failure, and then
the returned classification is exactly the heuristic analyzer's output on
the same sanitized text.  The department is always resolved from the
returned topics. -/
theorem hybrid_source_soundness (text : String) (compound : ℚ) (race : RaceOutcome) :
    ((analyze_feedback_hybrid text compound race).source = .ai ↔
      ∃ env v, race = .completed env ∧ call_llm text compound env = .ok v)
    ∧ (∀ env v, race = .completed env → call_llm text compound env = .ok v →
        (analyze_feedback_hybrid text compound race).sentiment = v.sentiment
        ∧ (analyze_feedback_hybrid text compound race).topics = v.topics
        ∧ (analyze_feedback_hybrid text compound race).is_urgent = v.is_urgent
        ∧ (analyze_feedback_hybrid text compound race).confidence_score
            = v.confidence_score
        ∧ (analyze_feedback_hybrid text compound race).ai_provider = v.ai_provider
        ∧ (analyze_feedback_hybrid text compound race).department
            = map_topics_to_department v.topics)
    ∧ (∀ p json, race = .completed (.reply p json) →
        (analyze_feedback_hybrid text compound race).sentiment
            = (validate_llm_response json).sentiment
        ∧ (analyze_feedback_hybrid text compound race).topics
            = (validate_llm_response json).topics
        ∧ (analyze_feedback_hybrid text compound race).is_urgent
            = (validate_llm_response json).is_urgent
        ∧ (analyze_feedback_hybrid text compound race).source = .ai)
    ∧ ((analyze_feedback_hybrid text compound race).source = .fallback →
        (analyze_feedback_hybrid text compound race).sentiment
            = (analyze_heuristic text compound).sentiment
        ∧ (analyze_feedback_hybrid text compound race).topics
            = (analyze_heuristic text compound).topics.map .jstr
        ∧ (analyze_feedback_hybrid text compound race).is_urgent
            = (analyze_heuristic text compound).is_urgent
        ∧ (analyze_feedback_hybrid text compound race).confidence_score
            = (analyze_heuristic text compound).confidence_score
        ∧ (analyze_feedback_hybrid text compound race).ai_provider
            = (analyze_heuristic text compound).ai_provider)
    ∧ (race = .timeout →
        (analyze_feedback_hybrid text compound race).source = .fallback)
    ∧ (∀ env, race = .completed env → call_llm text compound env = .error () →
        (analyze_feedback_hybrid text compound race).source = .fallback)
    ∧ (analyze_feedback_hybrid text compound race).department
        = map_topics_to_department (analyze_feedback_hybrid text compound race).topics := by
  cases race with
  | timeout =>
    refine ⟨?_, ?_, ?_, ?_, ?_, ?_, ?_⟩
    · rw [hybrid_timeout_eq]
      simp
    · intro env v h
      exact absurd h (by simp)
    · intro p json h
      exact absurd h (by simp)
    · intro _
      rw [hybrid_timeout_eq]
      exact ⟨rfl, rfl, rfl, rfl, rfl⟩
    · intro _
      rw [hybrid_timeout_eq]
    · intro env h
      exact absurd h (by simp)
    · rw [hybrid_timeout_eq]
  | completed env =>
    cases hc : call_llm text compound env with
    | ok ai =>
      refine ⟨?_, ?_, ?_, ?_, ?_, ?_, ?_⟩
      · rw [hybrid_ok_eq text compound env ai hc]
        exact iff_of_true rfl ⟨env, ai, rfl, hc⟩
      · intro env' v h1 h2
        cases h1
        rw [hc] at h2
        cases h2
        rw [hybrid_ok_eq text compound env ai hc]
        exact ⟨rfl, rfl, rfl, rfl, rfl, rfl⟩
      · intro p json h1
        cases h1
        have hv := call_llm_reply_eq text compound p json
        rw [hv] at hc
        cases hc
        rw [hybrid_ok_eq text compound (.reply p json) _ hv]
        exact ⟨rfl, rfl, rfl, rfl⟩
      · intro h
        rw [hybrid_ok_eq text compound env ai hc] at h
        exact absurd h (by simp)
      · intro h
        exact absurd h (by simp)
      · intro env' h1 h2
        cases h1
        rw [hc] at h2
        cases h2
      · rw [hybrid_ok_eq text compound env ai hc]
    | error e =>
      cases e
      refine ⟨?_, ?_, ?_, ?_, ?_, ?_, ?_⟩
      · rw [hybrid_err_eq text compound env hc, hybrid_timeout_eq]
        refine iff_of_false (by simp) ?_
        rintro ⟨env', v, h1, h2⟩
        cases h1
        rw [hc] at h2
        cases h2
      · intro env' v h1 h2
        cases h1
        rw [hc] at h2
        cases h2
      · intro p json h1
        cases h1
        rw [call_llm_reply_eq] at hc
        cases hc
      · intro _
        rw [hybrid_err_eq text compound env hc, hybrid_timeout_eq]
        exact ⟨rfl, rfl, rfl, rfl, rfl⟩
      · intro h
        exact absurd h (by simp)
      · intro env' h1 _
        cases h1
        rw [hybrid_err_eq text compound env hc, hybrid_timeout_eq]
      · rw [hybrid_err_eq text compound env hc, hybrid_timeout_eq]

/-! ## Ingestion: dedup lemmas -/

theorem ingest_dup (ps ws : Store) (raw : String) (c : ℚ) (r : RaceOutcome)
    (i t : Nat) (ex : Feedback)
    (hp : findByHash ps (Feedback.generate_hash (sanitize_text raw)) = some ex) :
    ingest_feedback ps ws raw c r i t = ({ record := ex, duplicate := true }, ws) := by
  simp only [ingest_feedback, hp]

theorem ingest_conflict (ps ws : Store) (raw : String) (c : ℚ) (r : RaceOutcome)
    (i t : Nat) (ex : Feedback)
    (hp : findByHash ps (Feedback.generate_hash (sanitize_text raw)) = none)
    (hw : findByHash ws (Feedback.generate_hash (sanitize_text raw)) = some ex) :
    ingest_feedback ps ws raw c r i t = ({ record := ex, duplicate := true }, ws) := by
  simp only [ingest_feedback, hp, hw]

theorem ingest_seq_new (store : Store) (raw : String) (c : ℚ) (r : RaceOutcome)
    (i t : Nat)
    (h0 : findByHash store (Feedback.generate_hash (sanitize_text raw)) = none) :
    ingest_seq store raw c r i t =
      ({ record := Feedback.fromAnalysis i t raw
            (Feedback.generate_hash (sanitize_text raw))
            (analyze_feedback_hybrid (sanitize_text raw) c r),
         duplicate := false },
       store ++ [Feedback.fromAnalysis i t raw
            (Feedback.generate_hash (sanitize_text raw))
            (analyze_feedback_hybrid (sanitize_text raw) c r)]) := by
  simp only [ingest_seq, ingest_feedback, h0]

theorem findByHash_insert (store : Store) (rec : Feedback) (h : String)
    (h0 : findByHash store h = none) (hrec : rec.content_hash = h) :
    findByHash (store ++ [rec]) h = some rec := by
  unfold findByHash at *
  rw [List.find?_append, h0]
  simp [hrec]

theorem countHash_insert (store : Store) (rec : Feedback) (h : String)
    (h0 : findByHash store h = none) (hrec : rec.content_hash = h) :
    countHash (store ++ [rec]) h = 1 := by
  unfold countHash
  rw [List.filter_append]
  have hnil : store.filter (fun r => decide (r.content_hash = h)) = [] := by
    rw [List.filter_eq_nil_iff]
    intro a ha
    have := List.find?_eq_none.mp h0 a ha
    simpa using this
  rw [hnil]
  simp [hrec]

/-- C2: submitting a text any number of times leaves exactly one stored row
whose `content_hash` is the SHA-256 of the sanitized text: the first
submission inserts it, every later submission returns that row with the
duplicate signal and writes nothing, and a submission whose insert races
into the unique index (pre-check missed, insert conflicts) is answered by
re-reading and returning the existing row, again without a write. -/
theorem ingest_idempotent (store0 : Store) (raw : String) (c0 : ℚ)
    (r0 : RaceOutcome) (i0 t0 : Nat)
    (h0 : findByHash store0 (Feedback.generate_hash (sanitize_text raw)) = none) :
    countHash (ingest_seq store0 raw c0 r0 i0 t0).2
        (Feedback.generate_hash (sanitize_text raw)) = 1
    ∧ (∀ c r i t, ingest_seq (ingest_seq store0 raw c0 r0 i0 t0).2 raw c r i t
        = ({ record := (ingest_seq store0 raw c0 r0 i0 t0).1.record,
             duplicate := true }, (ingest_seq store0 raw c0 r0 i0 t0).2))
    ∧ (∀ cf rf idf tf n,
        iterate_ingest raw cf rf idf tf (ingest_seq store0 raw c0 r0 i0 t0).2 n
          = (ingest_seq store0 raw c0 r0 i0 t0).2)
    ∧ (∀ ps ws ex c r i t,
        findByHash ps (Feedback.generate_hash (sanitize_text raw)) = none →
        findByHash ws (Feedback.generate_hash (sanitize_text raw)) = some ex →
        ingest_feedback ps ws raw c r i t = ({ record := ex, duplicate := true }, ws)) := by
  rw [ingest_seq_new store0 raw c0 r0 i0 t0 h0]
  have hfind := findByHash_insert store0
    (Feedback.fromAnalysis i0 t0 raw (Feedback.generate_hash (sanitize_text raw))
      (analyze_feedback_hybrid (sanitize_text raw) c0 r0))
    (Feedback.generate_hash (sanitize_text raw)) h0 rfl
  have hdup : ∀ c r i t,
      ingest_seq (store0 ++ [Feedback.fromAnalysis i0 t0 raw
          (Feedback.generate_hash (sanitize_text raw))
          (analyze_feedback_hybrid (sanitize_text raw) c0 r0)]) raw c r i t
        = ({ record := Feedback.fromAnalysis i0 t0 raw
              (Feedback.generate_hash (sanitize_text raw))
              (analyze_feedback_hybrid (sanitize_text raw) c0 r0),
             duplicate := true },
           store0 ++ [Feedback.fromAnalysis i0 t0 raw
              (Feedback.generate_hash (sanitize_text raw))
              (analyze_feedback_hybrid (sanitize_text raw) c0 r0)]) :=
    fun c r i t => ingest_dup _ _ raw c r i t _ hfind
  refine ⟨countHash_insert store0 _ _ h0 rfl, hdup, ?_, ?_⟩
  · intro cf rf idf tf n
    induction n with
    | zero => rfl
    | succ n ih =>
      show iterate_ingest raw cf rf idf tf
        (ingest_seq (store0 ++ [_]) raw (cf n) (rf n) (idf n) (tf n)).2 n = _
      rw [hdup (cf n) (rf n) (idf n) (tf n)]
      exact ih
  · intro ps ws ex c r i t hp hw
    exact ingest_conflict ps ws raw c r i t ex hp hw

/-- Witness for C2 at the empty store and a concrete text. -/
theorem ingest_idempotent_witness :
    countHash (ingest_seq [] "Great app!" 0 .timeout 0 0).2
      (Feedback.generate_hash (sanitize_text "Great app!")) = 1 :=
  (ingest_idempotent [] "Great app!" 0 .timeout 0 0 rfl).1

/-- C10: two raw texts with the same sanitized form share the content hash,
so the second submission returns the first stored record with the
duplicate signal and writes nothing: the persisted `raw_content` is the
first submitter's original text and the second text is never stored. -/
theorem ingest_dedup_by_sanitized (store0 : Store) (raw1 raw2 : String)
    (c0 : ℚ) (r0 : RaceOutcome) (i0 t0 : Nat)
    (h0 : findByHash store0 (Feedback.generate_hash (sanitize_text raw1)) = none)
    (heq : sanitize_text raw1 = sanitize_text raw2) :
    (ingest_seq store0 raw1 c0 r0 i0 t0).1.record.raw_content = raw1
    ∧ (∀ c r i t,
        ingest_seq (ingest_seq store0 raw1 c0 r0 i0 t0).2 raw2 c r i t
          = ({ record := (ingest_seq store0 raw1 c0 r0 i0 t0).1.record,
               duplicate := true }, (ingest_seq store0 raw1 c0 r0 i0 t0).2)) := by
  rw [ingest_seq_new store0 raw1 c0 r0 i0 t0 h0]
  refine ⟨rfl, ?_⟩
  intro c r i t
  refine ingest_dup _ _ raw2 c r i t _ ?_
  rw [← heq]
  exact findByHash_insert store0 _ _ h0 rfl

/-- Witness for C10: the second text differs only inside stripped HTML
tags, and its submission is answered with the first record. -/
theorem ingest_dedup_by_sanitized_witness :
    (ingest_seq [] "ab<i>q</i>c!" 0 .timeout 0 0).1.record.raw_content
      = "ab<i>q</i>c!" :=
  (ingest_dedup_by_sanitized [] "ab<i>q</i>c!" "abqc!<x>" 0 .timeout 0 0 rfl
    (by decide)).1

/-! ## Store helpers for the workers -/

theorem findById_some {store : Store} {i : Nat} {r : Feedback}
    (h : findById store i = some r) : r.id = i := by
  have := List.find?_some h
  simpa using this

theorem findById_updateById (store : Store) (i : Nat) (f : Feedback → Feedback)
    (hf : ∀ r, r.id = i → (f r).id = i) :
    findById (updateById store i f) i = (findById store i).map f := by
  induction store with
  | nil => rfl
  | cons r rest ih =>
    by_cases hr : r.id = i
    · simp only [updateById, List.map_cons, findById, List.find?_cons, hr, if_pos,
        hf r hr, decide_True]
      rfl
    · simp only [updateById, List.map_cons, findById, List.find?_cons, hr, ite_false,
        decide_eq_true_eq, if_neg]
      exact ih

theorem mem_updateById {store : Store} {i : Nat} {f : Feedback → Feedback}
    {rec : Feedback} (h : rec ∈ updateById store i f) :
    (∃ a ∈ store, a.id = i ∧ rec = f a) ∨ rec ∈ store := by
  rcases List.mem_map.mp h with ⟨a, ha, hrec⟩
  by_cases hid : a.id = i
  · rw [if_pos hid] at hrec
    exact Or.inl ⟨a, ha, hid, hrec.symm⟩
  · rw [if_neg hid] at hrec
    exact Or.inr (hrec ▸ ha)

/-- The workers.py write phase: with all preconditions met (the snapshot is
a fallback row, the LLM call returned, the live row exists), the row is
rewritten from the AI result; the live row's status is never examined. -/
theorem workers_reconcile_write {snap ws : Store} {fid : Nat} {c : ℚ}
    {env : LLMEnv} {fb live : Feedback} {ai : CallResult}
    (hsnap : findById snap fid = some fb) (hsrc : fb.source = .fallback)
    (hllm : call_llm (sanitize_text fb.raw_content) c env = .ok ai)
    (hlive : findById ws fid = some live) :
    Workers.reconcile_data_worker snap ws fid c env =
      updateById ws fid (fun _ =>
        { live with
          sentiment := ai.sentiment, topics := ai.topics,
          is_urgent := ai.is_urgent, source := .ai,
          ai_provider := ai.ai_provider,
          department := map_topics_to_department ai.topics,
          needs_review := if ai.is_urgent && !fb.is_urgent then true
                          else live.needs_review }) := by
  simp only [Workers.reconcile_data_worker, hsnap, hsrc, hllm, hlive, if_pos]

/-- The main.py write phase: the row (same session) is rewritten from the
AI result; `department` is left untouched; review is flagged on missed
urgency or on sentiment mismatch with an urgent AI result. -/
theorem main_reconcile_write {store : Store} {fid : Nat} {c : ℚ}
    {env : LLMEnv} {fb : Feedback} {ai : CallResult}
    (hfind : findById store fid = some fb) (hsrc : ¬ fb.source = .ai)
    (hllm : call_llm fb.raw_content c env = .ok ai) :
    MainApp.reconcile_data_worker store fid c env =
      updateById store fid (fun r =>
        { r with
          sentiment := ai.sentiment, topics := ai.topics,
          is_urgent := ai.is_urgent, source := .ai,
          ai_provider := ai.ai_provider,
          needs_review :=
            if (ai.is_urgent && !fb.is_urgent)
               || (decide (fb.sentiment ≠ ai.sentiment) && ai.is_urgent)
            then true else r.needs_review }) := by
  simp only [MainApp.reconcile_data_worker, hfind, hsrc, hllm, ite_false]

/-! ## C3: review flagging by the reconciliation workers -/

/-- A stored fallback row whose snapshot was already urgent, with a
sentiment that the AI contradicts. -/
def c3rec : Feedback :=
  { id := 1, created_at := 0, raw_content := "ok", content_hash := "h1",
    sentiment := "POSITIVE", topics := [.jstr "General"], is_urgent := true,
    confidence_score := 1/2, status := .OPEN, priority := .MEDIUM,
    resolution_note := none, needs_review := false, department := .SUPPORT,
    ai_provider := "vader-regex", source := .fallback }

/-- An LLM reply with the opposite sentiment and an urgent flag. -/
def c3env : LLMEnv :=
  .reply "groq-llama3"
    [("sentiment", .jstr "NEGATIVE"),
     ("topics", .jarr (.cons (.jstr "General") .nil)),
     ("is_urgent", .jbool true)]

/-- C3 counterexample: the scheduler's worker (workers.py) processes a row
whose stored sentiment (POSITIVE) differs from the urgent AI result
(NEGATIVE, urgent), and since the snapshot was already urgent there is no
missed urgency; the claim requires `needs_review = true`, but the row
ends with `needs_review = false`. -/
theorem workers_reconcile_ignores_sentiment_mismatch :
    (Workers.reconcile_data_worker [c3rec] [c3rec] 1 0 c3env).map
        (fun r => (r.sentiment, r.is_urgent, r.needs_review))
      = [("NEGATIVE", true, false)]
    ∧ c3rec.sentiment = "POSITIVE" ∧ c3rec.is_urgent = true
    ∧ c3rec.needs_review = false := by
  refine ⟨?_, rfl, rfl, rfl⟩
  decide

/-- C3 amended: in the scheduler's worker (app/workers.py) `needs_review`
is set to true exactly when missed urgency holds (AI urgent, snapshot not),
and is left unchanged otherwise; the additional condition of the claim —
sentiment mismatch together with an urgent AI result — sets `needs_review`
only in the older worker variant of app/main.py. -/
theorem reconcile_needs_review_characterization (snap ws : Store) (fid : Nat)
    (c : ℚ) (env : LLMEnv) :
    (∀ fb ai live,
      findById snap fid = some fb → fb.source = .fallback →
      call_llm (sanitize_text fb.raw_content) c env = .ok ai →
      findById ws fid = some live →
      findById (Workers.reconcile_data_worker snap ws fid c env) fid =
        some { live with
          sentiment := ai.sentiment, topics := ai.topics,
          is_urgent := ai.is_urgent, source := .ai,
          ai_provider := ai.ai_provider,
          department := map_topics_to_department ai.topics,
          needs_review := (ai.is_urgent && !fb.is_urgent) || live.needs_review })
    ∧ (∀ fb ai,
      findById ws fid = some fb → ¬ fb.source = .ai →
      call_llm fb.raw_content c env = .ok ai →
      findById (MainApp.reconcile_data_worker ws fid c env) fid =
        some { fb with
          sentiment := ai.sentiment, topics := ai.topics,
          is_urgent := ai.is_urgent, source := .ai,
          ai_provider := ai.ai_provider,
          needs_review :=
            ((ai.is_urgent && !fb.is_urgent)
              || (decide (fb.sentiment ≠ ai.sentiment) && ai.is_urgent))
              || fb.needs_review }) := by
  constructor
  · intro fb ai live hsnap hsrc hllm hlive
    have hres := findById_updateById ws fid
      (fun _ => { live with
        sentiment := ai.sentiment, topics := ai.topics,
        is_urgent := ai.is_urgent, source := .ai,
        ai_provider := ai.ai_provider,
        department := map_topics_to_department ai.topics,
        needs_review := if ai.is_urgent && !fb.is_urgent then true
                        else live.needs_review })
      (fun r hr => show live.id = fid from findById_some hlive)
    rw [workers_reconcile_write hsnap hsrc hllm hlive, hres, hlive]
    cases hb : ai.is_urgent && !fb.is_urgent <;> simp [hb]
  · intro fb ai hfind hsrc hllm
    have hres := findById_updateById ws fid
      (fun r => { r with
        sentiment := ai.sentiment, topics := ai.topics,
        is_urgent := ai.is_urgent, source := .ai,
        ai_provider := ai.ai_provider,
        needs_review :=
          if (ai.is_urgent && !fb.is_urgent)
             || (decide (fb.sentiment ≠ ai.sentiment) && ai.is_urgent)
          then true else r.needs_review })
      (fun r hr => hr)
    rw [main_reconcile_write hfind hsrc hllm, hres, hfind]
    cases hb : (ai.is_urgent && !fb.is_urgent)
        || (decide (fb.sentiment ≠ ai.sentiment) && ai.is_urgent) <;> simp [hb]

/-! ## C4: resolved records and the review invariant -/

theorem ingest_new (ps ws : Store) (raw : String) (c : ℚ) (r : RaceOutcome)
    (i t : Nat)
    (hp : findByHash ps (Feedback.generate_hash (sanitize_text raw)) = none)
    (hw : findByHash ws (Feedback.generate_hash (sanitize_text raw)) = none) :
    ingest_feedback ps ws raw c r i t =
      ({ record := Feedback.fromAnalysis i t raw
            (Feedback.generate_hash (sanitize_text raw))
            (analyze_feedback_hybrid (sanitize_text raw) c r),
         duplicate := false },
       ws ++ [Feedback.fromAnalysis i t raw
            (Feedback.generate_hash (sanitize_text raw))
            (analyze_feedback_hybrid (sanitize_text raw) c r)]) := by
  simp only [ingest_feedback, hp, hw]

/-- A fallback row that has already been resolved (resolution clears the
review flag), with a snapshot that was not urgent. -/
def c4rec : Feedback :=
  { id := 7, created_at := 0, raw_content := "bad", content_hash := "h4",
    sentiment := "NEGATIVE", topics := [.jstr "General"], is_urgent := false,
    confidence_score := 1/2, status := .RESOLVED, priority := .MEDIUM,
    resolution_note := some "done", needs_review := false,
    department := .SUPPORT, ai_provider := "vader-regex", source := .fallback }

/-- An LLM reply that flags the text urgent. -/
def c4env : LLMEnv :=
  .reply "groq-llama3"
    [("sentiment", .jstr "NEGATIVE"),
     ("topics", .jarr (.cons (.jstr "General") .nil)),
     ("is_urgent", .jbool true)]

/-- C4 counterexample: the worker processes a RESOLVED fallback row (the
claim says the upgrade is aborted) and rewrites it — the row stays
RESOLVED but gains `needs_review = true` and `source = ai`, violating
`status = RESOLVED → needs_review = false`. -/
theorem workers_reconcile_modifies_resolved :
    (Workers.reconcile_data_worker [c4rec] [c4rec] 7 0 c4env).map
        (fun r => (r.status, r.needs_review, r.source))
      = [(.RESOLVED, true, .ai)]
    ∧ c4rec.status = .RESOLVED ∧ c4rec.needs_review = false
    ∧ c4rec.source = .fallback := by
  refine ⟨?_, rfl, rfl, rfl⟩
  decide

/-- C4 amended: the reconciliation worker performs no status check at
write time: a row that is RESOLVED at the write is still rewritten (status
itself is preserved) and can even gain `needs_review = true` on missed
urgency, so `status = RESOLVED → needs_review = false` is established by
ingestion (new rows are OPEN with no flag) and by resolution (which clears
the flag) but is not preserved by reconciliation. -/
theorem resolved_review_invariant_per_operation :
    (∀ ps ws raw c r i t rec, rec ∈ (ingest_feedback ps ws raw c r i t).2 →
        rec ∈ ws ∨ (rec.status = .OPEN ∧ rec.needs_review = false))
    ∧ (∀ store fid note store', resolve_ticket store fid note = some store' →
        ∀ rec ∈ store',
          rec ∈ store ∨ (rec.status = .RESOLVED ∧ rec.needs_review = false))
    ∧ (∀ snap ws fid c env fb ai live,
        findById snap fid = some fb → fb.source = .fallback →
        call_llm (sanitize_text fb.raw_content) c env = .ok ai →
        findById ws fid = some live → live.status = .RESOLVED →
        findById (Workers.reconcile_data_worker snap ws fid c env) fid =
          some { live with
            sentiment := ai.sentiment, topics := ai.topics,
            is_urgent := ai.is_urgent, source := .ai,
            ai_provider := ai.ai_provider,
            department := map_topics_to_department ai.topics,
            needs_review := (ai.is_urgent && !fb.is_urgent) || live.needs_review }) := by
  refine ⟨?_, ?_, ?_⟩
  · intro ps ws raw c r i t rec hrec
    rcases h1 : findByHash ps (Feedback.generate_hash (sanitize_text raw)) with _ | ex
    · rcases h2 : findByHash ws (Feedback.generate_hash (sanitize_text raw)) with _ | ex2
      · rw [ingest_new ps ws raw c r i t h1 h2] at hrec
        rcases List.mem_append.mp hrec with h | h
        · exact Or.inl h
        · obtain rfl := List.mem_singleton.mp h
          exact Or.inr ⟨rfl, rfl⟩
      · rw [ingest_conflict ps ws raw c r i t ex2 h1 h2] at hrec
        exact Or.inl hrec
    · rw [ingest_dup ps ws raw c r i t ex h1] at hrec
      exact Or.inl hrec
  · intro store fid note store' hres rec hrec
    unfold resolve_ticket at hres
    rcases h1 : findById store fid with _ | fb
    · rw [h1] at hres
      cases hres
    · rw [h1] at hres
      obtain rfl := Option.some.inj hres
      rcases mem_updateById hrec with ⟨a, ha, hid, rfl⟩ | h
      · exact Or.inr ⟨rfl, rfl⟩
      · exact Or.inl h
  · intro snap ws fid c env fb ai live hsnap hsrc hllm hlive _
    have hres := findById_updateById ws fid
      (fun _ => { live with
        sentiment := ai.sentiment, topics := ai.topics,
        is_urgent := ai.is_urgent, source := .ai,
        ai_provider := ai.ai_provider,
        department := map_topics_to_department ai.topics,
        needs_review := if ai.is_urgent && !fb.is_urgent then true
                        else live.needs_review })
      (fun r hr => show live.id = fid from findById_some hlive)
    rw [workers_reconcile_write hsnap hsrc hllm hlive, hres, hlive]
    cases hb : ai.is_urgent && !fb.is_urgent <;> simp [hb]

/-! ## C5: department consistency with topics -/

/-- The invariant claimed by the spec: the routing destination is the fixed
mapping applied to the row's topics. -/
def DeptConsistent (r : Feedback) : Prop :=
  r.department = map_topics_to_department r.topics

/-- The race orchestrator always resolves the department from the topics
it returns. -/
theorem hybrid_department_eq (text : String) (c : ℚ) (race : RaceOutcome) :
    (analyze_feedback_hybrid text c race).department
      = map_topics_to_department (analyze_feedback_hybrid text c race).topics := rfl

/-- A fallback row routed from its current topics. -/
def c5rec : Feedback :=
  { id := 3, created_at := 0, raw_content := "meh", content_hash := "h5",
    sentiment := "NEUTRAL", topics := [.jstr "General"], is_urgent := false,
    confidence_score := 1/2, status := .OPEN, priority := .MEDIUM,
    resolution_note := none, needs_review := false, department := .SUPPORT,
    ai_provider := "vader-regex", source := .fallback }

/-- An LLM reply that reroutes the topic to Billing. -/
def c5env : LLMEnv :=
  .reply "groq-llama3"
    [("sentiment", .jstr "NEUTRAL"),
     ("topics", .jarr (.cons (.jstr "Billing") .nil)),
     ("is_urgent", .jbool false)]

/-- C5 counterexample: the main.py reconciliation variant rewrites the
topics to Billing but leaves the department at Support, while the mapping
sends Billing to Finance — the claimed invariant fails after this write. -/
theorem main_reconcile_breaks_department_consistency :
    (MainApp.reconcile_data_worker [c5rec] 3 0 c5env).map
        (fun r => (r.department, r.topics))
      = [(.SUPPORT, [.jstr "Billing"])]
    ∧ map_topics_to_department [.jstr "Billing"] = .FINANCE
    ∧ Department.SUPPORT ≠ .FINANCE := by
  exact ⟨rfl, rfl, by decide⟩

/-- C5 amended: ingestion and the scheduler's worker (app/workers.py)
preserve `department = mapping(topics)` on every row they write, but the
older main.py reconciliation variant rewrites topics without touching the
department, so the invariant does not survive that variant's writes. -/
theorem department_consistency_characterization :
    (∀ ps ws raw c r i t, (∀ rec ∈ ws, DeptConsistent rec) →
        ∀ rec ∈ (ingest_feedback ps ws raw c r i t).2, DeptConsistent rec)
    ∧ (∀ snap ws fid c env, (∀ rec ∈ ws, DeptConsistent rec) →
        ∀ rec ∈ Workers.reconcile_data_worker snap ws fid c env, DeptConsistent rec)
    ∧ (∀ store fid c env,
        (MainApp.reconcile_data_worker store fid c env).map (fun r => r.department)
          = store.map (fun r => r.department)) := by
  refine ⟨?_, ?_, ?_⟩
  · intro ps ws raw c r i t hws rec hrec
    rcases h1 : findByHash ps (Feedback.generate_hash (sanitize_text raw)) with _ | ex
    · rcases h2 : findByHash ws (Feedback.generate_hash (sanitize_text raw)) with _ | ex2
      · rw [ingest_new ps ws raw c r i t h1 h2] at hrec
        rcases List.mem_append.mp hrec with h | h
        · exact hws rec h
        · obtain rfl := List.mem_singleton.mp h
          exact hybrid_department_eq (sanitize_text raw) c r
      · rw [ingest_conflict ps ws raw c r i t ex2 h1 h2] at hrec
        exact hws rec hrec
    · rw [ingest_dup ps ws raw c r i t ex h1] at hrec
      exact hws rec hrec
  · intro snap ws fid c env hws rec hrec
    rcases h1 : findById snap fid with _ | fb
    · simp only [Workers.reconcile_data_worker, h1] at hrec
      exact hws rec hrec
    · by_cases hsrc : fb.source = .fallback
      · rcases h2 : call_llm (sanitize_text fb.raw_content) c env with e | ai
        · simp only [Workers.reconcile_data_worker, h1, hsrc, h2, if_pos] at hrec
          exact hws rec hrec
        · rcases h3 : findById ws fid with _ | live
          · simp only [Workers.reconcile_data_worker, h1, hsrc, h2, h3, if_pos] at hrec
            exact hws rec hrec
          · rw [workers_reconcile_write h1 hsrc h2 h3] at hrec
            rcases mem_updateById hrec with ⟨a, ha, hid, rfl⟩ | h
            · exact rfl
            · exact hws rec h
      · simp only [Workers.reconcile_data_worker, h1, if_neg hsrc] at hrec
        exact hws rec hrec
  · intro store fid c env
    rcases h1 : findById store fid with _ | fb
    · simp only [MainApp.reconcile_data_worker, h1]
    · by_cases hsrc : fb.source = .ai
      · simp only [MainApp.reconcile_data_worker, h1, hsrc, if_pos]
      · rcases h2 : call_llm fb.raw_content c env with e | ai
        · simp only [MainApp.reconcile_data_worker, h1, if_neg hsrc, h2]
        · rw [main_reconcile_write h1 hsrc h2]
          unfold updateById
          rw [List.map_map]
          refine List.map_congr_left (fun a ha => ?_)
          by_cases hid : a.id = fid <;> simp [hid]

/-! ## C8: the periodic scheduler's selection -/

/-- C8 amended: each scheduler iteration selects at most 10 rows, all with
`source = FALLBACK`, drawn from the store in the store's own row order
(the query has no ORDER BY, so oldest-first ordering by creation time is
not guaranteed), and runs the reconciliation worker on each selected row
in turn. -/
theorem scheduler_selection_characterization (store : Store)
    (cf : Nat → ℚ) (ef : Nat → LLMEnv) :
    (scheduler_select store).length ≤ 10
    ∧ (∀ r ∈ scheduler_select store, r.source = .fallback)
    ∧ (scheduler_select store).Sublist store
    ∧ run_periodic_reconciliation_iteration store cf ef =
        (scheduler_select store).foldl
          (fun st item =>
            Workers.reconcile_data_worker st st item.id (cf item.id) (ef item.id))
          store := by
  refine ⟨List.length_take_le _ _, ?_, ?_, rfl⟩
  · intro r hr
    have hmem := List.take_subset _ _ hr
    have := (List.mem_filter.mp hmem).2
    simpa using this
  · exact (List.take_sublist _ _).trans (List.filter_sublist _)

/-- A fallback row committed second but created first. -/
def c8later : Feedback :=
  { id := 1, created_at := 2, raw_content := "x1", content_hash := "hx1",
    sentiment := "NEUTRAL", topics := [.jstr "General"], is_urgent := false,
    confidence_score := 1/2, status := .OPEN, priority := .MEDIUM,
    resolution_note := none, needs_review := false, department := .SUPPORT,
    ai_provider := "vader-regex", source := .fallback }

def c8earlier : Feedback :=
  { id := 2, created_at := 1, raw_content := "x2", content_hash := "hx2",
    sentiment := "NEUTRAL", topics := [.jstr "General"], is_urgent := false,
    confidence_score := 1/2, status := .OPEN, priority := .MEDIUM,
    resolution_note := none, needs_review := false, department := .SUPPORT,
    ai_provider := "vader-regex", source := .fallback }

/-- C8 counterexample: with the row created at time 2 ahead of the row
created at time 1 in the store's row order (commit order need not follow
creation time), the selection comes back as [2, 1] by creation time — not
oldest first, since the query has no ORDER BY. -/
theorem scheduler_selection_not_oldest_first :
    (scheduler_select [c8later, c8earlier]).map (fun r => r.created_at) = [2, 1]
    ∧ ¬ List.Sorted (· ≤ ·)
        ((scheduler_select [c8later, c8earlier]).map (fun r => r.created_at)) := by
  refine ⟨rfl, ?_⟩
  intro h
  have : (2 : Nat) ≤ 1 := List.rel_of_sorted_cons h 1 (List.mem_singleton.mpr rfl)
  omega

end Aegis
